import Mathlib

/-!
Verification of the client-side dashboard logic of the Cyber-Risk-Intelligence
repository (`frontend/app/dashboard/page.tsx`), shallowly embedded in Lean.

JavaScript numbers are modelled as rationals (`ℚ`); all arithmetic appearing
in the embedded code stays well below the 2^53 exactness bound of doubles, so
the rational model agrees with the JavaScript evaluation on the inputs the
claims range over.  32-bit wrap-around (`& 0xffffffff` followed by `>>> 0`)
is modelled by the Euclidean remainder `% 2^32`, which is congruent to the
signed JavaScript intermediate and equal to the unsigned value actually used.
-/

/-- JavaScript `Math.round`: round half toward positive infinity. -/
def jsRound (q : ℚ) : ℤ := ⌊q + 1 / 2⌋

/-- One step of the generator in `seededRand`
(`s = (s * 1664525 + 1013904223) & 0xffffffff`), kept as the unsigned
representative `s >>> 0` in `[0, 2^32)`. -/
def lcgNext (s : ℤ) : ℤ := (s * 1664525 + 1013904223) % 4294967296

/-- `k`-fold iteration of `lcgNext` from an initial seed. -/
def lcgIter (s : ℤ) : Nat → ℤ
  | 0 => s
  | Nat.succ n => lcgNext (lcgIter s n)

/-- The value returned by one call of the closure produced by `seededRand`:
the updated state divided by `0xffffffff = 2^32 - 1`. -/
def drawOf (s : ℤ) : ℚ := (lcgNext s : ℚ) / 4294967295

/-- Recursion underlying `makeSparkline`: state `s` of the seeded generator,
current point index `i`, and the number `k` of points still to produce.  Each
point consumes exactly one draw, in point order, exactly as the
`Array.from({ length: 7 }, (_, i) => Math.max(0, val - (6 - i) * (val / 12) + rand() * 4))`
callback does. -/
def makeSparklineAux (val : ℚ) : ℤ → Nat → Nat → List ℚ
  | _, _, 0 => []
  | s, i, Nat.succ k =>
      let s2 := lcgNext s
      max 0 (val - ((6 : ℚ) - (i : ℚ)) * (val / 12) + ((s2 : ℚ) / 4294967295) * 4)
        :: makeSparklineAux val s2 (i + 1) k

/-- `makeSparkline(val, seed)`: seeds the generator with `seed + Math.round(val)`
and produces 7 points. -/
def makeSparkline (val : ℚ) (seed : ℤ) : List ℚ :=
  makeSparklineAux val (seed + jsRound val) 0 7

/-- Reference form of point `i` (0-indexed) of the sparkline: the draw used by
point `i` is the `(i+1)`-st state of the generator. -/
def sparkPoint (val : ℚ) (s0 : ℤ) (i : Nat) : ℚ :=
  max 0 (val - ((6 : ℚ) - (i : ℚ)) * (val / 12) + ((lcgIter s0 (i + 1) : ℚ) / 4294967295) * 4)

theorem makeSparkline_eq_map (val : ℚ) (seed : ℤ) :
    makeSparkline val seed = (List.range 7).map (sparkPoint val (seed + jsRound val)) := rfl

/-!
## Data model and derived metrics

The relevant fields of the `AnalysisData` record (the full TypeScript
interface also carries identifiers, timestamps and generated prose that the
derived-metric code never reads).  JavaScript object lookup in
`feature_contributions` is modelled by association-list lookup.
-/

structure AnalysisData where
  original_text : String
  overall_risk_score : ℚ
  risk_percentile : ℚ
  confidence_score : ℚ
  feature_contributions : List (String × ℚ)
  sentiment_score : ℚ

/-- `data?.feature_contributions?.KEY`: first binding of the key, if any. -/
def lookupFeature (fc : List (String × ℚ)) (key : String) : Option ℚ :=
  (fc.find? (fun p => p.1 == key)).map Prod.snd

/-- `needle.isPrefixOf hay || ...` scan modelling JavaScript
`String.prototype.includes`. -/
def includesList (needle : List Char) : List Char → Bool
  | [] => needle.isEmpty
  | c :: t => needle.isPrefixOf (c :: t) || includesList needle t

/-- `s.toLowerCase().includes(needle)` for an already-lowercase needle. -/
def containsCI (s : String) (needle : String) : Bool :=
  includesList needle.toList (s.toList.map Char.toLower)

/-- `const score = data?.overall_risk_score ?? 0`. -/
def score (d : Option AnalysisData) : ℚ := (d.map (·.overall_risk_score)).getD 0

/-- `execMode ? Math.min(Math.round(score * 1.2), 100) : score`. -/
def effectiveScore (execMode : Bool) (d : Option AnalysisData) : ℚ :=
  if execMode then min ((jsRound (score d * (6 / 5)) : ℤ) : ℚ) 100 else score d

/-- `data ? Math.round((data.confidence_score ?? 0) * 100) : 0`. -/
def confidence (d : Option AnalysisData) : ℚ :=
  match d with
  | some r => ((jsRound (r.confidence_score * 100) : ℤ) : ℚ)
  | none => 0

/-- `data?.risk_percentile ?? 0`. -/
def percentile (d : Option AnalysisData) : ℚ := (d.map (·.risk_percentile)).getD 0

/-- `data?.feature_contributions?.PERSON ?? 0`. -/
def identityIdx (d : Option AnalysisData) : ℚ :=
  match d with
  | some r => (lookupFeature r.feature_contributions "PERSON").getD 0
  | none => 0

/-- `data?.feature_contributions?.GPE ?? 0`. -/
def locationIdx (d : Option AnalysisData) : ℚ :=
  match d with
  | some r => (lookupFeature r.feature_contributions "GPE").getD 0
  | none => 0

/-- `data?.feature_contributions?.ORG ?? 0`. -/
def corpIdx (d : Option AnalysisData) : ℚ :=
  match d with
  | some r => (lookupFeature r.feature_contributions "ORG").getD 0
  | none => 0

/-- `Math.round((data?.behavioral_analysis?.sentiment?.score ?? 0) * 100)`. -/
def emoIdx (d : Option AnalysisData) : ℚ :=
  ((jsRound (((d.map (·.sentiment_score)).getD 0) * 100) : ℤ) : ℚ)

/-- `(data?.original_text ?? text).toLowerCase().includes("family") ? 73 : 0`:
with no record present this reads the live input `text`. -/
def familyIdx (d : Option AnalysisData) (text : String) : ℚ :=
  if containsCI ((d.map (·.original_text)).getD text) "family" then 73 else 0

/-- `getRiskColor`: executive mode short-circuits to the critical hue before
any banding is consulted. -/
def getRiskColor (execMode : Bool) (s : ℚ) : String :=
  if execMode then "#f87171"
  else if s ≤ 30 then "#4ade80"
  else if s ≤ 60 then "#facc15"
  else if s ≤ 80 then "#fb923c"
  else "#f87171"

/-- `getRiskLabel`: pure score banding, never consults the mode. -/
def getRiskLabel (s : ℚ) : String :=
  if s ≤ 30 then "Low Risk"
  else if s ≤ 60 then "Moderate Risk"
  else if s ≤ 80 then "High Risk"
  else "Critical Risk"

/-!
## Entity highlighter

`highlightText` escapes each entity value with a global `v.replace` whose
pattern is the character class listed in `regexSpecials` and whose
replacement is `"\\$&"`, then feeds the result to
`new RegExp("(" ++ esc ++ ")", "gi")`, replacing every match with a styled
span around `$1` (the matched slice of the text, original case preserved).

`lexLiteral` is the fragment of the JavaScript regular-expression grammar
that such patterns can fall into: an escaped character denotes itself, an
ordinary character denotes itself, and any *unescaped* special character (or
a trailing backslash) makes the pattern non-literal or ill-formed, which we
map to `none`.  The theorem for C6 shows escaping always lands in the
literal fragment, so the global case-insensitive regex replacement is
embedded as literal case-insensitive replacement (`ciReplaceAll`).
-/

/-- The characters matched by the escape regex's character class: dash,
slash, backslash, caret, dollar, star, plus, question mark, dot, the two
parentheses, pipe, the two square brackets and the two curly braces (a
leading dash in a character class is literal). -/
def regexSpecials : List Char :=
  ['-', '/', '\\', '^', '$', '*', '+', '?', '.', '(', ')', '|', '[', ']',
    Char.ofNat 123, Char.ofNat 125]

/-- The escaping step of `highlightText`: global replacement of every
character of `regexSpecials` by `"\\$&"`, i.e. a backslash followed by the
character itself. -/
def escapeRegex : List Char → List Char
  | [] => []
  | c :: rest => (if c ∈ regexSpecials then ['\\', c] else [c]) ++ escapeRegex rest

/-- Literal fragment of the JavaScript regex grammar: `some chars` when the
pattern is a well-formed literal denoting `chars`, `none` when it contains an
unescaped special character or a dangling backslash. -/
def lexLiteral : List Char → Option (List Char)
  | [] => some []
  | '\\' :: c :: rest => (lexLiteral rest).map (c :: ·)
  | ['\\'] => none
  | c :: rest => if c ∈ regexSpecials then none else (lexLiteral rest).map (c :: ·)

/-- Case-insensitive match of `needle` against a prefix of `hay`
(the canonicalisation the `i` flag performs, restricted to ASCII case). -/
def ciMatchesAt (needle hay : List Char) : Bool :=
  (hay.take needle.length).map Char.toLower == needle.map Char.toLower

/-- Fuel-indexed global replacement: scan left to right; at each match wrap
the matched slice of the text in `left`/`right` markers, continue after the
match without rescanning the replacement — the semantics of
`String.prototype.replace` with a `gi` literal regex and template
`left ++ "$1" ++ right`.  The fuel only serves structural termination; one
unit of fuel consumes at least one character, so `hay.length` is enough. -/
def ciReplaceAllFuel (needle left right : List Char) : Nat → List Char → List Char
  | _, [] => []
  | 0, hay => hay
  | Nat.succ f, c :: rest =>
      if !needle.isEmpty && ciMatchesAt needle (c :: rest) then
        left ++ (c :: rest).take needle.length ++ right
          ++ ciReplaceAllFuel needle left right f ((c :: rest).drop needle.length)
      else c :: ciReplaceAllFuel needle left right f rest

/-- `hay.replace(new RegExp("(" ++ needle ++ ")", "gi"), left ++ "$1" ++ right)`
for a literal `needle`. -/
def ciReplaceAll (needle left right : List Char) (hay : List Char) : List Char :=
  ciReplaceAllFuel needle left right hay.length hay

/-- `colorMap[label] || "#a78bfa"`. -/
def colorMap (label : String) : String :=
  if label == "GPE" then "#f97316"
  else if label == "PERSON" then "#60a5fa"
  else if label == "ORG" then "#22d3ee"
  else if label == "DATE" then "#a78bfa"
  else "#a78bfa"

/-- Opening tag of the entity span template for a given colour. -/
def spanOpen (color : String) : String :=
  "<span style=\"background:" ++ color ++ "30;color:" ++ color
    ++ ";border:1px solid " ++ color
    ++ "60;border-radius:4px;padding:0 3px;font-weight:600;\">"

/-- Opening tag of the hardcoded family-alert span. -/
def famOpen : String :=
  "<span style=\"background:#f8717140;color:#f87171;border:1px solid #f8717160;border-radius:4px;padding:0 3px;font-weight:600;\">"

def spanClose : String := "</span>"

/-- The nested `Object.entries(data.entities).forEach` / `vals.forEach` loop:
each value is replaced in the accumulated html in entry order. -/
def entityPass (ents : List (String × List String)) (html : List Char) : List Char :=
  ents.foldl
    (fun h p =>
      p.2.foldl
        (fun h2 v =>
          ciReplaceAll v.toList (spanOpen (colorMap p.1)).toList spanClose.toList h2)
        h)
    html

/-- `highlightText`: `if (!data?.entities) return raw;` then the entity loop,
then the fixed `/(family)/gi` pass.  `none` models a missing record or a
missing `entities` field. -/
def highlightText (ents : Option (List (String × List String))) (raw : List Char) :
    List Char :=
  match ents with
  | none => raw
  | some es =>
      ciReplaceAll "family".toList famOpen.toList spanClose.toList (entityPass es raw)

/-!
## Count-up animator (`useCountUp`)

The effect body of `useCountUp` starts a `requestAnimationFrame` chain whose
callback re-queues itself while `progress < 1`.  The effect returns **no**
cleanup function, so when its dependencies (`target`, `trigger`) change, the
previous chain keeps running alongside the new one.  The model therefore
keeps a *list* of chains: `cuTrigger` (an effect run) appends a chain without
removing any, and `cuFrame` fires every pending callback in registration
order at a timestamp, each one writing `current` (the later registration's
write lands last, as in the browser) and re-queuing itself while unfinished.
-/

structure CuChain where
  target : ℚ
  start : Option ℚ
deriving DecidableEq, Repr

structure CuState where
  chains : List CuChain
  current : ℤ
deriving DecidableEq, Repr

def cuDuration : ℚ := 1000

/-- Effect run on a (re)trigger with a new target: a fresh chain with
`start = null`, the previous chains left untouched (no cleanup in the code). -/
def cuTrigger (target : ℚ) (st : CuState) : CuState :=
  { st with chains := st.chains ++ [{ target := target, start := none }] }

/-- `if (!start) start = ts` of one callback. -/
def cuStarted (ts : ℚ) (c : CuChain) : CuChain :=
  { c with start := some (c.start.getD ts) }

/-- `progress = Math.min((ts - start) / duration, 1)` after the start fixup. -/
def cuProgress (ts : ℚ) (c : CuChain) : ℚ :=
  min ((ts - c.start.getD ts) / cuDuration) 1

/-- `Math.round(initial + (target - initial) * eased)` with `initial = 0` and
cubic ease-out. -/
def cuValue (ts : ℚ) (c : CuChain) : ℤ :=
  jsRound (c.target * (1 - (1 - cuProgress ts c) ^ 3))

/-- One animation frame at timestamp `ts`: every pending callback runs in
registration order; each writes `current` (last write wins) and remains
scheduled iff its own `progress < 1`. -/
def cuFrame (ts : ℚ) (st : CuState) : CuState :=
  let started := st.chains.map (cuStarted ts)
  { chains := started.filter (fun c => decide (cuProgress ts c < 1)),
    current := ((started.map (cuValue ts)).getLast?).getD st.current }

def cuInit : CuState := { chains := [], current := 0 }

/-!
## Typewriter animator (`useTypewriter`)

Unlike `useCountUp`, the typewriter effect *does* return a cleanup
(`return () => clearInterval(id)`), and React runs it before re-running the
effect, so a single interval handle suffices: `twRetrigger` models
cleanup-then-effect on a text change, `twTick` one interval callback.
-/

structure TwState where
  timer : Option (List Char × Nat)
  displayed : List Char
deriving DecidableEq, Repr

/-- Re-trigger with (possibly new) source text: the cleanup of the previous
effect clears the interval; the new body bails out before touching state when
the text is empty (`if (!trigger || !text) return;`), otherwise resets the
display and starts a fresh interval with counter 0. -/
def twRetrigger (text : List Char) (st : TwState) : TwState :=
  if text.isEmpty then { st with timer := none }
  else { displayed := [], timer := some (text, 0) }

/-- One interval callback: `i++; setDisplayed(text.slice(0, i)); if (i >= text.length) clearInterval(id);`. -/
def twTick (st : TwState) : TwState :=
  match st.timer with
  | none => st
  | some (t, i) =>
      { displayed := t.take (i + 1),
        timer := if t.length ≤ i + 1 then none else some (t, i + 1) }

/-- `n` interval callbacks. -/
def twTickN : Nat → TwState → TwState
  | 0, st => st
  | Nat.succ n, st => twTickN n (twTick st)

set_option maxRecDepth 8000

/-!
## Helper lemmas
-/

theorem lcgNext_nonneg (s : ℤ) : 0 ≤ lcgNext s :=
  Int.emod_nonneg _ (by norm_num)

theorem lcgNext_lt (s : ℤ) : lcgNext s < 4294967296 :=
  Int.emod_lt_of_pos _ (by norm_num)

theorem drawOf_nonneg (s : ℤ) : 0 ≤ drawOf s := by
  apply div_nonneg _ (by norm_num)
  exact_mod_cast lcgNext_nonneg s

theorem drawOf_le_one (s : ℤ) : drawOf s ≤ 1 := by
  rw [drawOf, div_le_one (by norm_num)]
  have := lcgNext_lt s
  exact_mod_cast (by omega : lcgNext s ≤ 4294967295)

/-!
## Claims
-/

/-- C1: for every `targetValue ∈ [0,100]` and positive seed, `makeSparkline`
returns exactly 7 points, point `i` (0-indexed) being
`max(0, val - (6-i)*(val/12) + draw*4)` where the draw consumed by point `i`
is the `(i+1)`-st state of the seeded generator (one draw per point, in point
order); and two calls with identical arguments return identical sequences. -/
theorem makeSparkline_seven_points (val : ℚ) (seed : ℤ)
    (h0 : 0 ≤ val) (h1 : val ≤ 100) (hs : 1 ≤ seed) :
    (makeSparkline val seed).length = 7
      ∧ makeSparkline val seed
          = (List.range 7).map (sparkPoint val (seed + jsRound val))
      ∧ makeSparkline val seed = makeSparkline val seed :=
  ⟨by rw [makeSparkline_eq_map]; rfl, makeSparkline_eq_map val seed, rfl⟩

/-- Witness for C1 at `targetValue = 50`, `seed = 1`. -/
theorem makeSparkline_seven_points_witness :
    (0 : ℚ) ≤ 50 ∧ (50 : ℚ) ≤ 100 ∧ (1 : ℤ) ≤ 1
      ∧ ((makeSparkline 50 1).length = 7
          ∧ makeSparkline 50 1 = (List.range 7).map (sparkPoint 50 (1 + jsRound 50))
          ∧ makeSparkline 50 1 = makeSparkline 50 1) :=
  ⟨by norm_num, by norm_num, le_refl 1,
    makeSparkline_seven_points 50 1 (by norm_num) (by norm_num) (le_refl 1)⟩

/-- C2 counterexample: the draw divides the state by `0xffffffff = 2^32 - 1`,
not by `2^32` — at seed 1 the first draw differs from `state / 2^32` — and a
draw *can* equal 1: the seed 653637408 maps to state `2^32 - 1`, whose draw
is exactly 1. -/
theorem drawOf_not_div_pow32 :
    drawOf 1 ≠ (lcgNext 1 : ℚ) / 4294967296 ∧ drawOf 653637408 = 1 := by
  constructor
  · rw [drawOf, show lcgNext 1 = 1015568748 from by decide]
    norm_num
  · rw [drawOf, show lcgNext 653637408 = 4294967295 from by decide]
    norm_num

/-- C2 amended: the state update is
`state = (state * 1664525 + 1013904223) mod 2^32` as claimed, but each draw
returns `state / (2^32 - 1)`, a value in the *closed* interval `[0,1]`, and a
draw equals 1 exactly when the updated state is `2^32 - 1` (which is
reachable, e.g. from seed 653637408). -/
theorem drawOf_range (s : ℤ) :
    lcgNext s = (s * 1664525 + 1013904223) % 4294967296
      ∧ drawOf s = (lcgNext s : ℚ) / 4294967295
      ∧ 0 ≤ drawOf s ∧ drawOf s ≤ 1
      ∧ (drawOf s = 1 ↔ lcgNext s = 4294967295) := by
  refine ⟨rfl, rfl, drawOf_nonneg s, drawOf_le_one s, ?_⟩
  rw [drawOf, div_eq_one_iff_eq (by norm_num)]
  exact ⟨fun h => by exact_mod_cast h, fun h => by exact_mod_cast congrArg (Int.cast : ℤ → ℚ) h⟩

/-- C10: for every `targetValue ≥ 0` and every seed, all 7 sparkline points
are nonnegative and the last (7th) point is at least the target value. -/
theorem makeSparkline_last_ge (val : ℚ) (seed : ℤ) (h0 : 0 ≤ val) :
    (∀ x ∈ makeSparkline val seed, 0 ≤ x)
      ∧ val ≤ (makeSparkline val seed).getD 6 0 := by
  constructor
  · rw [makeSparkline_eq_map]
    intro x hx
    obtain ⟨i, _, rfl⟩ := List.mem_map.mp hx
    exact le_max_left 0 _
  · have hlast : (makeSparkline val seed).getD 6 0
        = sparkPoint val (seed + jsRound val) 6 := by
      rw [makeSparkline_eq_map]; rfl
    rw [hlast, sparkPoint]
    have hd : (0 : ℚ) ≤ (lcgIter (seed + jsRound val) 7 : ℚ) / 4294967295 := by
      apply div_nonneg _ (by norm_num)
      exact_mod_cast lcgNext_nonneg (lcgIter (seed + jsRound val) 6)
    have hexpr : val - ((6 : ℚ) - ((6 : ℕ) : ℚ)) * (val / 12)
        + ((lcgIter (seed + jsRound val) 7 : ℚ) / 4294967295) * 4
        = val + ((lcgIter (seed + jsRound val) 7 : ℚ) / 4294967295) * 4 := by
      push_cast
      ring
    rw [show (6 : ℕ) + 1 = 7 from rfl, hexpr]
    refine le_max_of_le_right ?_
    nlinarith [hd]

/-- Witness for C10 at `targetValue = 50`, `seed = 1`. -/
theorem makeSparkline_last_ge_witness :
    (0 : ℚ) ≤ 50
      ∧ ((∀ x ∈ makeSparkline 50 1, 0 ≤ x) ∧ 50 ≤ (makeSparkline 50 1).getD 6 0) :=
  ⟨by norm_num, makeSparkline_last_ge 50 1 (by norm_num)⟩

/-- C3: with a record present, every derived metric equals its reference
definition — `effectiveScore` amplifies and caps in executive mode (hence
stays ≤ 100 for scores in `[0,100]`), the three entity indices are feature
lookups defaulting to 0, `emotionalIndex` rounds `sentimentScore * 100`, and
`familyExposureFlag` is 73 exactly when the record's text contains "family"
case-insensitively, else 0. -/
theorem derivedMetrics_reference (r : AnalysisData) (m : Bool) (text : String)
    (h0 : 0 ≤ r.overall_risk_score) (h1 : r.overall_risk_score ≤ 100) :
    effectiveScore m (some r)
        = (if m then min ((jsRound (r.overall_risk_score * (6 / 5)) : ℤ) : ℚ) 100
           else r.overall_risk_score)
      ∧ effectiveScore m (some r) ≤ 100
      ∧ identityIdx (some r) = (lookupFeature r.feature_contributions "PERSON").getD 0
      ∧ locationIdx (some r) = (lookupFeature r.feature_contributions "GPE").getD 0
      ∧ corpIdx (some r) = (lookupFeature r.feature_contributions "ORG").getD 0
      ∧ emoIdx (some r) = ((jsRound (r.sentiment_score * 100) : ℤ) : ℚ)
      ∧ familyIdx (some r) text
          = (if containsCI r.original_text "family" then 73 else 0)
      ∧ (familyIdx (some r) text = 73 ↔ containsCI r.original_text "family" = true) := by
  refine ⟨rfl, ?_, rfl, rfl, rfl, rfl, rfl, ?_⟩
  · cases m with
    | false => simpa [effectiveScore, score] using h1
    | true => simpa [effectiveScore] using min_le_right _ (100 : ℚ)
  · have hfam : familyIdx (some r) text
        = (if containsCI r.original_text "family" then (73 : ℚ) else 0) := rfl
    rw [hfam]
    by_cases hc : containsCI r.original_text "family" = true
    · simp [hc]
    · simp [hc]

/-- Sample record used to witness C3. -/
def sampleRecord : AnalysisData :=
  { original_text := "we love family time",
    overall_risk_score := 50,
    risk_percentile := 90,
    confidence_score := 7 / 10,
    feature_contributions := [("PERSON", 12), ("GPE", 20), ("ORG", 5)],
    sentiment_score := 3 / 10 }

/-- Witness for C3 on `sampleRecord` in executive mode. -/
theorem derivedMetrics_reference_witness :
    (0 ≤ sampleRecord.overall_risk_score ∧ sampleRecord.overall_risk_score ≤ 100)
      ∧ (effectiveScore true (some sampleRecord)
            = (if true then
                min ((jsRound (sampleRecord.overall_risk_score * (6 / 5)) : ℤ) : ℚ) 100
               else sampleRecord.overall_risk_score)
          ∧ effectiveScore true (some sampleRecord) ≤ 100
          ∧ identityIdx (some sampleRecord)
              = (lookupFeature sampleRecord.feature_contributions "PERSON").getD 0
          ∧ locationIdx (some sampleRecord)
              = (lookupFeature sampleRecord.feature_contributions "GPE").getD 0
          ∧ corpIdx (some sampleRecord)
              = (lookupFeature sampleRecord.feature_contributions "ORG").getD 0
          ∧ emoIdx (some sampleRecord)
              = ((jsRound (sampleRecord.sentiment_score * 100) : ℤ) : ℚ)
          ∧ familyIdx (some sampleRecord) ""
              = (if containsCI sampleRecord.original_text "family" then 73 else 0)
          ∧ (familyIdx (some sampleRecord) "" = 73
              ↔ containsCI sampleRecord.original_text "family" = true)) :=
  ⟨⟨by norm_num [sampleRecord], by norm_num [sampleRecord]⟩,
    derivedMetrics_reference sampleRecord true ""
      (by norm_num [sampleRecord]) (by norm_num [sampleRecord])⟩

/-- C4: risk labels are banded with inclusive upper bounds (30/31/60/61/80/81
map to Low/Moderate/Moderate/High/High/Critical), executive mode forces the
colour to the critical hue `#f87171` for every score, and the label function
never consults the mode. -/
theorem riskBanding (s : ℚ) :
    (s ≤ 30 → getRiskLabel s = "Low Risk")
      ∧ (30 < s → s ≤ 60 → getRiskLabel s = "Moderate Risk")
      ∧ (60 < s → s ≤ 80 → getRiskLabel s = "High Risk")
      ∧ (80 < s → getRiskLabel s = "Critical Risk")
      ∧ getRiskColor true s = "#f87171"
      ∧ getRiskLabel 30 = "Low Risk" ∧ getRiskLabel 31 = "Moderate Risk"
      ∧ getRiskLabel 60 = "Moderate Risk" ∧ getRiskLabel 61 = "High Risk"
      ∧ getRiskLabel 80 = "High Risk" ∧ getRiskLabel 81 = "Critical Risk" := by
  refine ⟨?_, ?_, ?_, ?_, rfl, ?_, ?_, ?_, ?_, ?_, ?_⟩
  · intro h; simp [getRiskLabel, h]
  · intro h30 h60; simp [getRiskLabel, not_le.mpr h30, h60]
  · intro h60 h80; simp [getRiskLabel, not_le.mpr (by linarith : (30 : ℚ) < s),
      not_le.mpr h60, h80]
  · intro h80; simp [getRiskLabel, not_le.mpr (by linarith : (30 : ℚ) < s),
      not_le.mpr (by linarith : (60 : ℚ) < s), not_le.mpr h80]
  all_goals norm_num [getRiskLabel]

/-- Witness for C4: the banding implications applied at scores 45 and 81. -/
theorem riskBanding_witness :
    getRiskLabel 45 = "Moderate Risk" ∧ getRiskLabel 81 = "Critical Risk" :=
  ⟨(riskBanding 45).2.1 (by norm_num) (by norm_num),
    (riskBanding 81).2.2.2.1 (by norm_num)⟩

/-- C5 counterexample: with no record present, `familyExposureFlag` does
*not* default to 0 — it is computed from the live input text, so input
"our family" yields 73. -/
theorem familyIdx_no_record_not_zero :
    familyIdx none "our family" = 73 ∧ (73 : ℚ) ≠ 0 := by
  constructor
  · simp [familyIdx, show containsCI "our family" "family" = true from by decide]
  · norm_num

/-- C5 amended: with no record present, every derived metric defaults to 0
*except* `familyExposureFlag`, which falls back to the current input text:
73 when that text contains "family" case-insensitively, else 0. -/
theorem derivedMetrics_no_record (m : Bool) (text : String) :
    effectiveScore m none = 0 ∧ confidence none = 0 ∧ percentile none = 0
      ∧ identityIdx none = 0 ∧ locationIdx none = 0 ∧ corpIdx none = 0
      ∧ emoIdx none = 0
      ∧ familyIdx none text = (if containsCI text "family" then 73 else 0) := by
  refine ⟨?_, rfl, rfl, rfl, rfl, rfl, ?_, rfl⟩
  · cases m with
    | false => rfl
    | true => simp [effectiveScore, score, jsRound]; norm_num
  · simp [emoIdx, jsRound]; norm_num

/-- C6: escaping an entity value always yields a well-formed regex pattern
that denotes exactly the literal value (so highlighting never throws and
matches only literal occurrences, whatever metacharacters the value holds);
concretely, the value `"A.B*C"` present verbatim in a text is the only
substring wrapped — the decoy `"AxBBC"`, which the *unescaped* pattern would
match, is left alone. -/
theorem escapeRegex_literal :
    (∀ v : List Char, lexLiteral (escapeRegex v) = some v)
      ∧ highlightText (some [("PERSON", ["A.B*C"])])
            "see A.B*C here; AxBBC stays".toList
          = ("see " ++ spanOpen "#60a5fa" ++ "A.B*C" ++ spanClose
              ++ " here; AxBBC stays").toList := by
  constructor
  · intro v
    induction v with
    | nil => rfl
    | cons c rest ih =>
        by_cases hc : c ∈ regexSpecials
        · simp [escapeRegex, hc, lexLiteral, ih]
        · have hbs : ¬ c = '\\' := fun h => hc (h ▸ by decide)
          simp [escapeRegex, hc, lexLiteral, ih, hbs]
  · decide

/-- C7 counterexample: when the entities mapping is absent the highlighter
returns the raw text unchanged, so the occurrence of "family" in it is *not*
wrapped, although the fixed family pass would have wrapped it. -/
theorem highlightText_absent_entities_skips_family :
    highlightText none "our family".toList = "our family".toList
      ∧ ciReplaceAll "family".toList famOpen.toList spanClose.toList
            "our family".toList
          ≠ "our family".toList :=
  ⟨rfl, by decide⟩

/-- C7 amended: the fixed family pass runs after entity substitution whenever
the entities mapping is *present* — including when it is empty, as the
concrete conjunct shows — but when the mapping is absent the highlighter
returns the raw text unchanged and no family pass occurs. -/
theorem highlightText_family_pass :
    (∀ (es : List (String × List String)) (raw : List Char),
        highlightText (some es) raw
          = ciReplaceAll "family".toList famOpen.toList spanClose.toList
              (entityPass es raw))
      ∧ (∀ raw : List Char, highlightText none raw = raw)
      ∧ highlightText (some []) "My Family".toList
          = ("My " ++ famOpen ++ "Family" ++ spanClose).toList :=
  ⟨fun _ _ => rfl, fun _ => rfl, by decide⟩

/-- C8: the claim requires re-triggering to cancel the in-flight schedule,
with never more than one active schedule per animator instance; the effect in
`useCountUp` returns no cleanup, so after one frame at `t = 0` a re-trigger
with a new target leaves *two* active schedules, and both are still scheduled
at the next frame — the code contradicts the claimed (and spec-mandated)
cancellation. -/
theorem useCountUp_orphan_schedule :
    (cuTrigger 80 (cuFrame 0 (cuTrigger 50 cuInit))).chains.length = 2
      ∧ (cuFrame 100 (cuTrigger 80 (cuFrame 0 (cuTrigger 50 cuInit)))).chains.length
          = 2 := by
  constructor
  · norm_num [cuInit, cuTrigger, cuFrame, cuStarted, cuProgress, cuValue, cuDuration,
      List.filter]
  · norm_num [cuInit, cuTrigger, cuFrame, cuStarted, cuProgress, cuValue, cuDuration,
      List.filter]

/-- Canonical typewriter state after `i` ticks on source `t`: the first `i`
characters shown, the interval still pending iff characters remain. -/
def twRun (t : List Char) (i : Nat) : TwState :=
  { displayed := t.take i,
    timer := if t.length ≤ i then none else some (t, i) }

theorem twTick_twRun (t : List Char) (i : Nat) :
    twTick (twRun t i) = twRun t (i + 1) := by
  by_cases h : t.length ≤ i
  · simp only [twRun, twTick, if_pos h, if_pos (Nat.le_succ_of_le h)]
    rw [List.take_of_length_le h, List.take_of_length_le (Nat.le_succ_of_le h)]
  · simp only [twRun, twTick, if_neg h]

theorem twTickN_twRun (t : List Char) (k i : Nat) :
    twTickN k (twRun t i) = twRun t (i + k) := by
  induction k generalizing i with
  | zero => rfl
  | succ n ih =>
      rw [twTickN, twTick_twRun, ih]
      congr 1
      omega

/-- C9: re-triggering the typewriter with a non-empty text resets the display
to empty with a single fresh interval at counter 0 (the previous interval is
cancelled), after `k` ticks the display is exactly the first `k` characters
of the *new* text — never mixing in residue of the old one — and after
`length` ticks the display equals the full text and the interval is
stopped. -/
theorem useTypewriter_complete (st : TwState) (t : List Char) (h : t ≠ []) :
    (twRetrigger t st).displayed = [] ∧ (twRetrigger t st).timer = some (t, 0)
      ∧ (∀ k, (twTickN k (twRetrigger t st)).displayed = t.take k)
      ∧ (twTickN t.length (twRetrigger t st)).displayed = t
      ∧ (twTickN t.length (twRetrigger t st)).timer = none := by
  have hret : twRetrigger t st = twRun t 0 := by
    simp only [twRetrigger, twRun, List.isEmpty_iff, List.take_zero]
    rw [if_neg h, if_neg (by simpa [List.length_eq_zero] using h)]
  refine ⟨by rw [hret]; rfl, ?_, ?_, ?_, ?_⟩
  · rw [hret, twRun, if_neg (by simpa [List.length_eq_zero] using h)]
  · intro k
    rw [hret, twTickN_twRun]
    simp [twRun]
  · rw [hret, twTickN_twRun]
    simp [twRun]
  · rw [hret, twTickN_twRun]
    simp [twRun]

/-- Witness for C9: re-trigger from a mid-reveal state of the old text
`"old"` with the new text `"hi"`. -/
theorem useTypewriter_complete_witness :
    ("hi".toList ≠ [])
      ∧ ((twRetrigger "hi".toList ⟨some ("old".toList, 2), "ol".toList⟩).displayed = []
          ∧ (twRetrigger "hi".toList ⟨some ("old".toList, 2), "ol".toList⟩).timer
              = some ("hi".toList, 0)
          ∧ (∀ k, (twTickN k (twRetrigger "hi".toList
                ⟨some ("old".toList, 2), "ol".toList⟩)).displayed = "hi".toList.take k)
          ∧ (twTickN "hi".toList.length (twRetrigger "hi".toList
                ⟨some ("old".toList, 2), "ol".toList⟩)).displayed = "hi".toList
          ∧ (twTickN "hi".toList.length (twRetrigger "hi".toList
                ⟨some ("old".toList, 2), "ol".toList⟩)).timer = none) :=
  ⟨by decide,
    useTypewriter_complete ⟨some ("old".toList, 2), "ol".toList⟩ "hi".toList (by decide)⟩
